import Mathlib

/-! Calendar foundation: proleptic Gregorian day numbering (epoch 1970-01-01), as used by
the JS Date local-time getters and setters that the reminder services rely on. -/

/-- Day-of-era on which year-of-era k (March-based) begins, k in [0,400]. -/
def yearStartEra (k : Int) : Int := 365*k + k/4 - k/100

/-- First day-of-year (March-based) of shifted month mp (0 = March .. 11 = February). -/
def monthStartDoy (mp : Int) : Int := (153*mp + 2) / 5

/-- Day number of the proleptic Gregorian date (y, m, d); m in 1..12, d enters linearly so
out-of-range d behaves exactly like JS Date day overflow. -/
def daysFromCivil (y m d : Int) : Int :=
  365*(if m ≤ 2 then y - 1 else y) + (if m ≤ 2 then y - 1 else y)/4
    - (if m ≤ 2 then y - 1 else y)/100 + (if m ≤ 2 then y - 1 else y)/400
    + monthStartDoy (if 3 ≤ m then m - 3 else m + 9) + d - 1 - 719468

def eraOf (z : Int) : Int := (z + 719468) / 146097

def doeOf (z : Int) : Int := z + 719468 - eraOf z * 146097

def g2Of (doe : Int) : Int :=
  if yearStartEra (doe / 365) ≤ doe then doe / 365 else doe / 365 - 1

def yoeOf (doe : Int) : Int := if 399 ≤ g2Of doe then 399 else g2Of doe

def doyOfEra (doe : Int) : Int := doe - yearStartEra (yoeOf doe)

def mpOfDoy (doy : Int) : Int := (5*doy + 2) / 153

/-- Gregorian year of day number z. -/
def yearOfDay (z : Int) : Int :=
  yoeOf (doeOf z) + eraOf z * 400 + (if 10 ≤ mpOfDoy (doyOfEra (doeOf z)) then 1 else 0)

/-- Gregorian month (1..12) of day number z. -/
def monthOfDay (z : Int) : Int :=
  if mpOfDoy (doyOfEra (doeOf z)) ≤ 9 then mpOfDoy (doyOfEra (doeOf z)) + 3
  else mpOfDoy (doyOfEra (doeOf z)) - 9

/-- Day of month (1..31) of day number z. -/
def domOfDay (z : Int) : Int :=
  doyOfEra (doeOf z) - monthStartDoy (mpOfDoy (doyOfEra (doeOf z))) + 1

-- sanity
example : daysFromCivil 1970 1 1 = 0 := by decide
example : yearOfDay 19782 = 2024 ∧ monthOfDay 19782 = 2 ∧ domOfDay 19782 = 29 := by decide
example : daysFromCivil 2024 2 29 = 19782 := by decide
example : yearOfDay (-1) = 1969 ∧ monthOfDay (-1) = 12 ∧ domOfDay (-1) = 31 := by decide

theorem doe_decomp (z : Int) : eraOf z * 146097 + doeOf z = z + 719468 := by
  unfold doeOf; ring

theorem doe_bounds (z : Int) : 0 ≤ doeOf z ∧ doeOf z < 146097 := by
  unfold doeOf eraOf; omega

theorem yoe_spec (doe : Int) (h0 : 0 ≤ doe) (h1 : doe < 146097) :
    0 ≤ yoeOf doe ∧ yoeOf doe ≤ 399 ∧
    yearStartEra (yoeOf doe) ≤ doe ∧
    doe - yearStartEra (yoeOf doe) ≤ 365 ∧
    (doe - yearStartEra (yoeOf doe) = 365 →
      (yoeOf doe + 1) % 4 = 0 ∧ ((yoeOf doe + 1) % 100 ≠ 0 ∨ yoeOf doe = 399)) := by
  have hg2 : (yearStartEra (doe / 365) ≤ doe ∧ g2Of doe = doe / 365) ∨
      (¬ yearStartEra (doe / 365) ≤ doe ∧ g2Of doe = doe / 365 - 1) := by
    unfold g2Of
    split_ifs with h
    exacts [Or.inl ⟨h, rfl⟩, Or.inr ⟨h, rfl⟩]
  have hyoe : (399 ≤ g2Of doe ∧ yoeOf doe = 399) ∨
      (¬ 399 ≤ g2Of doe ∧ yoeOf doe = g2Of doe) := by
    unfold yoeOf
    split_ifs with h
    exacts [Or.inl ⟨h, rfl⟩, Or.inr ⟨h, rfl⟩]
  unfold yearStartEra at *
  rcases hg2 with ⟨ht, he⟩ | ⟨ht, he⟩ <;> rw [he] at hyoe <;>
    rcases hyoe with ⟨hc, hv⟩ | ⟨hc, hv⟩ <;> rw [hv] <;> try omega
  simp only [sub_add_cancel]
  have hbd : (doe / 365 % 4 = 0 ∧ (doe/365 - 1) / 4 = doe/365/4 - 1) ∨
      (doe / 365 % 4 ≠ 0 ∧ (doe/365 - 1) / 4 = doe/365/4) := by omega
  have hce : (doe / 365 % 100 = 0 ∧ (doe/365 - 1) / 100 = doe/365/100 - 1) ∨
      (doe / 365 % 100 ≠ 0 ∧ (doe/365 - 1) / 100 = doe/365/100) := by omega
  omega

theorem doy_bounds (z : Int) :
    0 ≤ doyOfEra (doeOf z) ∧ doyOfEra (doeOf z) ≤ 365 := by
  obtain ⟨h0, h1⟩ := doe_bounds z
  obtain ⟨_, _, ha, hb, _⟩ := yoe_spec (doeOf z) h0 h1
  unfold doyOfEra
  omega

set_option maxHeartbeats 3200000 in
/-- Master specification of the civil decomposition of a day number: component ranges,
roundtrip through daysFromCivil, and strict upper bound by the following month start. -/
theorem civil_spec (z : Int) :
    1 ≤ monthOfDay z ∧ monthOfDay z ≤ 12 ∧ 1 ≤ domOfDay z ∧
    daysFromCivil (yearOfDay z) (monthOfDay z) (domOfDay z) = z ∧
    (monthOfDay z ≤ 11 → z < daysFromCivil (yearOfDay z) (monthOfDay z + 1) 1) ∧
    (monthOfDay z = 12 → z < daysFromCivil (yearOfDay z + 1) 1 1) := by
  obtain ⟨hd0, hd1⟩ := doe_bounds z
  have hdec := doe_decomp z
  obtain ⟨hy0, hy1, hys, hdoyUB, hleap⟩ := yoe_spec (doeOf z) hd0 hd1
  have hdoyeq : doyOfEra (doeOf z) = doeOf z - yearStartEra (yoeOf (doeOf z)) := rfl
  unfold yearOfDay monthOfDay domOfDay
  set era := eraOf z with hera
  set doe := doeOf z with hdoe
  set yoe := yoeOf doe with hyoe
  set doy := doyOfEra doe with hdoyv
  set mp := mpOfDoy doy with hmp
  have hmpdef : mp = (5*doy + 2) / 153 := rfl
  have hc4 : (yoe + era*400)/4 = era*100 + yoe/4 := by omega
  have hc100 : (yoe + era*400)/100 = era*4 + yoe/100 := by omega
  have hc400 : (yoe + era*400)/400 = era := by omega
  have hd4 : (yoe + era*400 + 1)/4 = era*100 + (yoe+1)/4 := by omega
  have hd100 : (yoe + era*400 + 1)/100 = era*4 + (yoe+1)/100 := by omega
  have hd400 : (yoe + era*400 + 1)/400 = era + (yoe+1)/400 := by omega
  have hq400 : (yoe+1)/400 = if yoe = 399 then 1 else 0 := by
    split_ifs <;> omega
  have hsh4 : ((yoe+1) % 4 = 0 ∧ (yoe+1)/4 = yoe/4 + 1) ∨
      ((yoe+1) % 4 ≠ 0 ∧ (yoe+1)/4 = yoe/4) := by omega
  have hsh100 : ((yoe+1) % 100 = 0 ∧ (yoe+1)/100 = yoe/100 + 1) ∨
      ((yoe+1) % 100 ≠ 0 ∧ (yoe+1)/100 = yoe/100) := by omega
  unfold yearStartEra at *
  unfold daysFromCivil monthStartDoy
  clear hera hdoe hyoe hdoyv hmp
  split_ifs <;> simp only [add_sub_cancel_right, add_zero] <;> omega

/-! Month-index machinery: absolute month numbering and month start day numbers. -/

/-- Absolute month index: multiples of 12 per year plus zero-based month. -/
def monthIdx (y m : Int) : Int := 12*y + m - 1

/-- Day number of the first day of the month with absolute index K. -/
def msd (K : Int) : Int := daysFromCivil (K / 12) (K % 12 + 1) 1

theorem daysFromCivil_day_linear (y m d : Int) :
    daysFromCivil y m d = daysFromCivil y m 1 + d - 1 := by
  unfold daysFromCivil; ring

theorem msd_monthIdx (y m : Int) (h1 : 1 ≤ m) (h2 : m ≤ 12) :
    msd (monthIdx y m) = daysFromCivil y m 1 := by
  unfold msd monthIdx
  have e1 : (12*y + m - 1)/12 = y := by omega
  have e2 : (12*y + m - 1)%12 + 1 = m := by omega
  rw [e1, e2]

theorem dfc_month_succ (y m : Int) (h1 : 1 ≤ m) (h2 : m ≤ 11) :
    daysFromCivil y m 1 < daysFromCivil y (m+1) 1 := by
  have a4 : (y-1)/4 ≤ y/4 ∧ y/4 ≤ (y-1)/4 + 1 := by omega
  have a100 : (y-1)/100 ≤ y/100 ∧ y/100 ≤ (y-1)/100 + 1 := by omega
  have a400 : (y-1)/400 ≤ y/400 ∧ y/400 ≤ (y-1)/400 + 1 := by omega
  unfold daysFromCivil monthStartDoy
  split_ifs <;> omega

theorem dfc_year_succ (y : Int) :
    daysFromCivil y 12 1 < daysFromCivil (y+1) 1 1 := by
  unfold daysFromCivil monthStartDoy
  split_ifs <;> simp only [add_sub_cancel_right] <;> omega

theorem msd_lt_succ (K : Int) : msd K < msd (K+1) := by
  have hm : 0 ≤ K % 12 ∧ K % 12 < 12 := by omega
  rcases eq_or_ne (K % 12) 11 with h | h
  · have e1 : (K+1)/12 = K/12 + 1 := by omega
    have e2 : (K+1)%12 + 1 = 1 := by omega
    have e3 : K % 12 + 1 = 12 := by omega
    unfold msd
    rw [e1, e2, e3]
    exact dfc_year_succ (K / 12)
  · have e1 : (K+1)/12 = K/12 := by omega
    have e2 : (K+1)%12 + 1 = (K % 12 + 1) + 1 := by omega
    unfold msd
    rw [e1, e2]
    exact dfc_month_succ (K / 12) (K % 12 + 1) (by omega) (by omega)

theorem msd_strictMono {K L : Int} (h : K < L) : msd K < msd L := by
  have base : msd K < msd (K + 1) := msd_lt_succ K
  have step : ∀ n, K + 1 ≤ n → msd K < msd n → msd K < msd (n + 1) :=
    fun n _ ih => lt_trans ih (msd_lt_succ n)
  exact @Int.le_induction (fun L => msd K < msd L) (K + 1) base step L h

theorem msd_mono {K L : Int} (h : K ≤ L) : msd K ≤ msd L := by
  rcases eq_or_lt_of_le h with rfl | hlt
  · exact le_refl _
  · exact le_of_lt (msd_strictMono hlt)

/-- The absolute month index of the month containing day number z. -/
def monthIdxOfDay (z : Int) : Int := monthIdx (yearOfDay z) (monthOfDay z)

theorem day_eq_msd_add_dom (z : Int) :
    z = msd (monthIdxOfDay z) + (domOfDay z - 1) := by
  obtain ⟨h1, h2, hd, hrt, _, _⟩ := civil_spec z
  unfold monthIdxOfDay
  rw [msd_monthIdx _ _ h1 h2]
  rw [daysFromCivil_day_linear] at hrt
  omega

theorem day_lt_msd_succ (z : Int) : z < msd (monthIdxOfDay z + 1) := by
  obtain ⟨h1, h2, hd, hrt, hu1, hu2⟩ := civil_spec z
  unfold monthIdxOfDay monthIdx
  rcases eq_or_ne (monthOfDay z) 12 with h12 | h12
  · have e : 12 * yearOfDay z + monthOfDay z - 1 + 1 = monthIdx (yearOfDay z + 1) 1 := by
      unfold monthIdx; omega
    rw [e, msd_monthIdx _ _ (by omega) (by omega)]
    exact hu2 h12
  · have e : 12 * yearOfDay z + monthOfDay z - 1 + 1 = monthIdx (yearOfDay z) (monthOfDay z + 1) := by
      unfold monthIdx; omega
    rw [e, msd_monthIdx _ _ (by omega) (by omega)]
    exact hu1 (by omega)

theorem dom_lower (z : Int) : 1 ≤ domOfDay z := (civil_spec z).2.2.1

theorem msd_le_of_le (K z : Int) (h : msd K ≤ z) : msd K ≤ msd (monthIdxOfDay z) := by
  by_contra hcon
  push_neg at hcon
  have h1 : monthIdxOfDay z < K := by
    by_contra hk
    push_neg at hk
    exact absurd (msd_mono hk) (by omega)
  have h2 : msd (monthIdxOfDay z + 1) ≤ msd K := msd_mono (by omega)
  have h3 := day_lt_msd_succ z
  omega

/-! Instants: minutes in the fixed-offset local frame used by all JS Date getters and
setters in the services (no DST; the services compare and mutate dates consistently in
one frame). One day is 1440 minutes; day 0 contains the epoch and was a Thursday. -/

def dayOfInstant (t : Int) : Int := t / 1440

def minuteOfDay (t : Int) : Int := t % 1440

/-- JS getHours. -/
def hoursOf (t : Int) : Int := t % 1440 / 60

/-- JS getMinutes. -/
def minutesOf (t : Int) : Int := t % 60

/-- JS setHours(h, mi, 0, 0): keep the day, replace the time of day. -/
def setTimeOfDay (t h mi : Int) : Int := (t / 1440) * 1440 + (h*60 + mi)

/-- JS setDate(getDate() + n): shift by whole days, keeping the time of day. -/
def addDays (t n : Int) : Int := t + n*1440

/-- JS getDay (weekday, 0 = Sunday .. 6 = Saturday). -/
def jsWeekday (t : Int) : Int := (t / 1440 + 4) % 7

/-- JS setMonth(getMonth() + n): normalize the shifted month into year and month, keep the
day of month (with overflow semantics) and the time of day. -/
def jsAddMonths (t n : Int) : Int :=
  (msd (monthIdxOfDay (t / 1440) + n) + (domOfDay (t / 1440) - 1)) * 1440 + t % 1440

/-- JS setDate(n): replace the day of month by n (with overflow semantics), keep month and
time of day. -/
def jsSetDayOfMonth (t n : Int) : Int :=
  (msd (monthIdxOfDay (t / 1440)) + (n - 1)) * 1440 + t % 1440

/-- JS setFullYear(getFullYear() + n): shift the year, keep month, day of month (with
overflow semantics) and time of day. -/
def jsAddYears (t n : Int) : Int :=
  daysFromCivil (yearOfDay (t / 1440) + n) (monthOfDay (t / 1440)) (domOfDay (t / 1440)) * 1440
    + t % 1440

theorem jsAddMonths_day_gt (t n : Int) (hn : 1 ≤ n) :
    t / 1440 < (msd (monthIdxOfDay (t / 1440) + n) + (domOfDay (t / 1440) - 1)) := by
  have h1 := day_eq_msd_add_dom (t / 1440)
  have h2 : msd (monthIdxOfDay (t / 1440)) < msd (monthIdxOfDay (t / 1440) + n) :=
    msd_strictMono (by omega)
  omega

theorem jsAddMonths_gt (t n : Int) (hn : 1 ≤ n) : t < jsAddMonths t n := by
  have h := jsAddMonths_day_gt t n hn
  unfold jsAddMonths
  omega

theorem day_of_mk (D tau : Int) (h0 : 0 ≤ tau) (h1 : tau < 1440) : (D*1440 + tau)/1440 = D := by
  omega

theorem jsSetDayOfMonth_addMonths_gt (t j n : Int) (hj : 1 ≤ j) (hn : 1 ≤ n) :
    t < jsSetDayOfMonth (jsAddMonths t j) n := by
  have hz := day_eq_msd_add_dom (t / 1440)
  have hdom := dom_lower (t / 1440)
  have hup := day_lt_msd_succ (t / 1440)
  have hA : jsAddMonths t j =
      (msd (monthIdxOfDay (t / 1440) + j) + (domOfDay (t / 1440) - 1)) * 1440 + t % 1440 := rfl
  set W := msd (monthIdxOfDay (t / 1440) + j) + (domOfDay (t / 1440) - 1) with hW
  have hw : (jsAddMonths t j) / 1440 = W := by
    rw [hA]
    exact day_of_mk _ _ (by omega) (by omega)
  have hmono : msd (monthIdxOfDay (t / 1440) + 1) ≤ msd (monthIdxOfDay (t / 1440) + j) :=
    msd_mono (by omega)
  have hle : msd (monthIdxOfDay (t / 1440) + j) ≤ msd (monthIdxOfDay W) :=
    msd_le_of_le _ _ (by omega)
  unfold jsSetDayOfMonth
  rw [hw, hA]
  omega

theorem dfc_year_shift_gt (y m d n : Int) (hn : 1 ≤ n) :
    daysFromCivil y m d < daysFromCivil (y+n) m d := by
  unfold daysFromCivil monthStartDoy
  split_ifs <;> omega

theorem jsAddYears_gt (t n : Int) (hn : 1 ≤ n) : t < jsAddYears t n := by
  have hz := (civil_spec (t / 1440)).2.2.2.1
  have hgt := dfc_year_shift_gt (yearOfDay (t / 1440)) (monthOfDay (t / 1440))
    (domOfDay (t / 1440)) n hn
  unfold jsAddYears
  omega

theorem addDays_day (t k : Int) : (addDays t k) / 1440 = t / 1440 + k := by
  unfold addDays; omega

theorem setTimeOfDay_gt_of_day_gt (t s h mi : Int) (hday : t / 1440 < s / 1440)
    (h0 : 0 ≤ h*60 + mi) : t < setTimeOfDay s h mi := by
  unfold setTimeOfDay
  omega

/-! Data model, translated from src/src/modules/reminders/entities/reminder.entity.ts.
Timestamps are instants (minutes) in the fixed-offset local frame; the timeOfDay string
"HH:MM" is carried as its parsed (hours, minutes) pair; ISO timestamp strings that only
wrap instants (endDate, exclusionDates) are carried as the instants themselves. -/

inductive ReminderType
  | once
  | daily
  | weekly
  | monthly
  | yearly
  | custom
deriving DecidableEq, Repr

inductive ReminderStatus
  | active
  | paused
  | completed
  | cancelled
deriving DecidableEq, Repr

structure RecurrencePattern where
  interval : Option Int := none
  daysOfWeek : Option (List Int) := none
  dayOfMonth : Option Int := none
  timeOfDay : Option (Int × Int) := none
  endDate : Option Int := none
  maxOccurrences : Option Int := none
  exclusionDates : Option (List Int) := none
deriving DecidableEq, Repr

structure Reminder where
  id : Nat
  userId : Nat := 0
  title : String
  description : Option String := none
  type : ReminderType
  status : ReminderStatus := .active
  scheduledAt : Int
  nextExecution : Option Int := none
  recurrencePattern : Option RecurrencePattern := none
  executionCount : Int := 0
  lastExecutedAt : Option Int := none
deriving DecidableEq, Repr

/-- JS access pattern.interval with the `pattern?.interval || 1` default: a missing pattern,
a missing interval, and the falsy interval 0 all give 1. -/
def effInterval (p : Option RecurrencePattern) : Int :=
  match p with
  | none => 1
  | some pat =>
    match pat.interval with
    | none => 1
    | some i => if i = 0 then 1 else i

/-- JS access to pattern.daysOfWeek behind the `pattern?.daysOfWeek && length > 0` guard. -/
def daysOfWeekOf (p : Option RecurrencePattern) : List Int :=
  match p with
  | none => []
  | some pat => pat.daysOfWeek.getD []

def timeOfDayOf (p : Option RecurrencePattern) : Option (Int × Int) :=
  match p with
  | none => none
  | some pat => pat.timeOfDay

def dayOfMonthOf (p : Option RecurrencePattern) : Option Int :=
  match p with
  | none => none
  | some pat => pat.dayOfMonth

def endDateOf (p : Option RecurrencePattern) : Option Int :=
  match p with
  | none => none
  | some pat => pat.endDate

def maxOccurrencesOf (p : Option RecurrencePattern) : Option Int :=
  match p with
  | none => none
  | some pat => pat.maxOccurrences

/-- JS access `pattern?.exclusionDates || []`. -/
def exclusionsOf (p : Option RecurrencePattern) : List Int :=
  match p with
  | none => []
  | some pat => pat.exclusionDates.getD []

/-- JS `daysOfWeek.sort((a, b) => a - b)`. -/
def sortedDays (l : List Int) : List Int := l.mergeSort (fun a b => decide (a ≤ b))

/-- The shared weekly day-of-week stepping: find the smallest configured weekday after the
current one, wrapping one week ahead onto the first configured weekday when none remains.
The JS falsiness check `!nextDay` would also treat a found weekday 0 as missing; a found
value exceeds the current weekday, which is nonnegative, so the check is kept verbatim. -/
def weeklyFindStep (t : Int) (sds : List Int) : Int :=
  match sds.find? (fun d => decide (jsWeekday t < d)) with
  | some nd =>
    if nd = 0 then addDays (addDays t 7) (sds.headD 0 - jsWeekday t)
    else addDays t (nd - jsWeekday t)
  | none => addDays (addDays t 7) (sds.headD 0 - jsWeekday t)

/-- The timeOfDay reapplication after a date-unit addition (reminder.service.ts lines
340-343 and recurring-deletion.service.ts lines 637-640). -/
def applyTimeOfDay (p : Option RecurrencePattern) (s : Int) : Int :=
  match timeOfDayOf p with
  | some hm => setTimeOfDay s hm.1 hm.2
  | none => s

/-- One recurrence-unit advancement from t: the switch shared verbatim by
calculateSubsequentExecution (reminder.service.ts lines 296-337) and the loop body of the
exclusion-skipping search (recurring-deletion.service.ts lines 599-640), followed by the
timeOfDay reapplication. The default branch (custom, and once in this position) yields
none, before any timeOfDay application. -/
def advanceOnce (t : Int) (ty : ReminderType) (p : Option RecurrencePattern) : Option Int :=
  match ty with
  | .daily => some (applyTimeOfDay p (addDays t (effInterval p)))
  | .weekly =>
    some (applyTimeOfDay p
      (if daysOfWeekOf p ≠ [] then weeklyFindStep t (sortedDays (daysOfWeekOf p))
      else addDays t (7 * effInterval p)))
  | .monthly =>
    some (applyTimeOfDay p
      (match dayOfMonthOf p with
      | some n => jsSetDayOfMonth (jsAddMonths t (effInterval p)) n
      | none => jsAddMonths t (effInterval p)))
  | .yearly => some (applyTimeOfDay p (jsAddYears t (effInterval p)))
  | _ => none

/-- JS truthy check `pattern?.maxOccurrences && pattern.maxOccurrences <= 0`: it holds only
for a present, nonzero (truthy) value that is at most 0, hence only for negatives. -/
def maxOccurrencesFalsyCheck (p : Option RecurrencePattern) : Bool :=
  match maxOccurrencesOf p with
  | some mo => decide (mo ≠ 0) && decide (mo ≤ 0)
  | none => false

/-- calculateSubsequentExecution (reminder.service.ts lines 291-355). -/
def calculateSubsequentExecution (currentTime : Int) (ty : ReminderType)
    (p : Option RecurrencePattern) : Option Int :=
  match advanceOnce currentTime ty p with
  | none => none
  | some next =>
    if maxOccurrencesFalsyCheck p then none
    else
      match endDateOf p with
      | some e => if e < next then none else some next
      | none => some next

/-- calculateInitialRecurringExecution (reminder.service.ts lines 195-286). The block that
would apply pattern.timeOfDay to the candidate is commented out in the source (lines
204-207), so the candidate is scheduledTime unchanged. -/
def calculateInitialRecurringExecution (scheduledTime : Int) (ty : ReminderType)
    (p : Option RecurrencePattern) (now : Int) : Option Int :=
  match ty with
  | .daily =>
    if now < scheduledTime then some scheduledTime
    else some (addDays scheduledTime (effInterval p))
  | .weekly =>
    if daysOfWeekOf p ≠ [] then
      if (sortedDays (daysOfWeekOf p)).contains (jsWeekday scheduledTime) ∧ now < scheduledTime
        then some scheduledTime
      else some (weeklyFindStep scheduledTime (sortedDays (daysOfWeekOf p)))
    else
      if now < scheduledTime then some scheduledTime
      else some (addDays scheduledTime (7 * effInterval p))
  | .monthly =>
    match dayOfMonthOf p with
    | some targetDay =>
      if domOfDay (scheduledTime / 1440) = targetDay ∧ now < scheduledTime
        then some scheduledTime
      else some (jsSetDayOfMonth (jsAddMonths scheduledTime (effInterval p)) targetDay)
    | none =>
      if now < scheduledTime then some scheduledTime
      else some (jsAddMonths scheduledTime (effInterval p))
  | .yearly =>
    if now < scheduledTime then some scheduledTime
    else some (jsAddYears scheduledTime (effInterval p))
  | _ => none

/-- calculateNextExecution (reminder.service.ts lines 170-190); the internal `new Date()`
reads are the explicit now parameter. -/
def calculateNextExecution (currentTime : Int) (ty : ReminderType)
    (p : Option RecurrencePattern) (isInitialScheduling : Bool) (now : Int) : Option Int :=
  if ty = .once then some currentTime
  else if isInitialScheduling then calculateInitialRecurringExecution currentTime ty p now
  else calculateSubsequentExecution currentTime ty p

-- sanity: a daily reminder scheduled at 02:00 of day 0 with timeOfDay 11:00, advanced
-- after a fire, lands on 11:00 of the following day
example : calculateSubsequentExecution 120 .daily (some { timeOfDay := some (11, 0) })
    = some 2100 := by decide
example : calculateSubsequentExecution 120 .custom none = none := by decide

/-! Wellformedness of recurrence patterns as the data model documents them: nonnegative
interval, weekdays in 0..6, a parsed "HH:MM" time of day, day of month at least 1. -/

def wfPattern (p : Option RecurrencePattern) : Bool :=
  match p with
  | none => true
  | some pat =>
    (match pat.interval with | some i => decide (0 ≤ i) | none => true) &&
    (pat.daysOfWeek.getD []).all (fun d => decide (0 ≤ d) && decide (d ≤ 6)) &&
    (match pat.timeOfDay with | some hm => decide (0 ≤ hm.1) && decide (0 ≤ hm.2) | none => true) &&
    (match pat.dayOfMonth with | some n => decide (1 ≤ n) | none => true)

theorem wf_effInterval (p : Option RecurrencePattern) (hwf : wfPattern p = true) :
    1 ≤ effInterval p := by
  cases p with
  | none => exact le_refl 1
  | some pat =>
    have hwf2 : ((match pat.interval with | some i => decide (0 ≤ i) | none => true) &&
        (pat.daysOfWeek.getD []).all (fun d => decide (0 ≤ d) && decide (d ≤ 6)) &&
        (match pat.timeOfDay with
          | some hm => decide (0 ≤ hm.1) && decide (0 ≤ hm.2) | none => true) &&
        (match pat.dayOfMonth with | some n => decide (1 ≤ n) | none => true)) = true := hwf
    simp only [Bool.and_eq_true] at hwf2
    obtain ⟨⟨⟨hi, _⟩, _⟩, _⟩ := hwf2
    show (1 : Int) ≤ (match pat.interval with
      | none => (1 : Int)
      | some i => if i = 0 then 1 else i)
    cases hpi : pat.interval with
    | none => exact le_refl 1
    | some i =>
      rw [hpi] at hi
      simp only [decide_eq_true_eq] at hi
      show (1 : Int) ≤ if i = 0 then 1 else i
      split_ifs <;> omega

theorem wf_daysOfWeek (p : Option RecurrencePattern) (hwf : wfPattern p = true) :
    ∀ d ∈ daysOfWeekOf p, 0 ≤ d ∧ d ≤ 6 := by
  cases p with
  | none => simp [daysOfWeekOf]
  | some pat =>
    have hwf2 : ((match pat.interval with | some i => decide (0 ≤ i) | none => true) &&
        (pat.daysOfWeek.getD []).all (fun d => decide (0 ≤ d) && decide (d ≤ 6)) &&
        (match pat.timeOfDay with
          | some hm => decide (0 ≤ hm.1) && decide (0 ≤ hm.2) | none => true) &&
        (match pat.dayOfMonth with | some n => decide (1 ≤ n) | none => true)) = true := hwf
    simp only [Bool.and_eq_true] at hwf2
    obtain ⟨⟨⟨_, hd⟩, _⟩, _⟩ := hwf2
    intro d hdm
    have hdm2 : d ∈ pat.daysOfWeek.getD [] := hdm
    have := List.all_eq_true.mp hd d hdm2
    simp only [Bool.and_eq_true, decide_eq_true_eq] at this
    exact this

theorem wf_timeOfDay (p : Option RecurrencePattern) (hwf : wfPattern p = true)
    (h mi : Int) (htod : timeOfDayOf p = some (h, mi)) : 0 ≤ h ∧ 0 ≤ mi := by
  cases p with
  | none => exact Option.noConfusion htod
  | some pat =>
    have hwf2 : ((match pat.interval with | some i => decide (0 ≤ i) | none => true) &&
        (pat.daysOfWeek.getD []).all (fun d => decide (0 ≤ d) && decide (d ≤ 6)) &&
        (match pat.timeOfDay with
          | some hm => decide (0 ≤ hm.1) && decide (0 ≤ hm.2) | none => true) &&
        (match pat.dayOfMonth with | some n => decide (1 ≤ n) | none => true)) = true := hwf
    simp only [Bool.and_eq_true] at hwf2
    obtain ⟨⟨_, ht⟩, _⟩ := hwf2
    have htod2 : pat.timeOfDay = some (h, mi) := htod
    rw [htod2] at ht
    simp only [Bool.and_eq_true, decide_eq_true_eq] at ht
    exact ht

theorem wf_dayOfMonth (p : Option RecurrencePattern) (hwf : wfPattern p = true)
    (n : Int) (hdm : dayOfMonthOf p = some n) : 1 ≤ n := by
  cases p with
  | none => exact Option.noConfusion hdm
  | some pat =>
    have hwf2 : ((match pat.interval with | some i => decide (0 ≤ i) | none => true) &&
        (pat.daysOfWeek.getD []).all (fun d => decide (0 ≤ d) && decide (d ≤ 6)) &&
        (match pat.timeOfDay with
          | some hm => decide (0 ≤ hm.1) && decide (0 ≤ hm.2) | none => true) &&
        (match pat.dayOfMonth with | some n => decide (1 ≤ n) | none => true)) = true := hwf
    simp only [Bool.and_eq_true] at hwf2
    obtain ⟨_, hn⟩ := hwf2
    have hdm2 : pat.dayOfMonth = some n := hdm
    rw [hdm2] at hn
    simp only [decide_eq_true_eq] at hn
    exact hn

theorem applyTimeOfDay_day_ge (p : Option RecurrencePattern) (hwf : wfPattern p = true)
    (s : Int) : s / 1440 ≤ (applyTimeOfDay p s) / 1440 := by
  cases htod : timeOfDayOf p with
  | none => simp [applyTimeOfDay, htod]
  | some hm =>
    obtain ⟨hh, hmi⟩ := wf_timeOfDay p hwf hm.1 hm.2 (by rw [htod])
    simp only [applyTimeOfDay, htod]
    unfold setTimeOfDay
    omega

theorem sortedDays_mem (l : List Int) (d : Int) : d ∈ sortedDays l ↔ d ∈ l :=
  (List.mergeSort_perm l _).mem_iff

theorem sortedDays_ne_nil (l : List Int) (h : l ≠ []) : sortedDays l ≠ [] := by
  intro hc
  apply h
  have hlen := (List.mergeSort_perm l (fun a b => decide (a ≤ b))).length_eq
  have hc2 : l.mergeSort (fun a b => decide (a ≤ b)) = [] := hc
  rw [hc2] at hlen
  exact List.length_eq_zero.mp hlen.symm

theorem headD_mem (l : List Int) (h : l ≠ []) : l.headD 0 ∈ l := by
  cases l with
  | nil => exact absurd rfl h
  | cons a t => simp

theorem jsWeekday_bounds (t : Int) : 0 ≤ jsWeekday t ∧ jsWeekday t ≤ 6 := by
  unfold jsWeekday
  omega

theorem weeklyFindStep_day_gt (t : Int) (sds : List Int)
    (hne : sds ≠ []) (hb : ∀ d ∈ sds, 0 ≤ d ∧ d ≤ 6) :
    t / 1440 < (weeklyFindStep t sds) / 1440 := by
  obtain ⟨hw0, hw6⟩ := jsWeekday_bounds t
  cases hfind : sds.find? (fun d => decide (jsWeekday t < d)) with
  | some nd =>
    have hmem : nd ∈ sds := List.mem_of_find?_eq_some hfind
    have hpred : jsWeekday t < nd := by
      have := List.find?_some hfind
      simpa using this
    obtain ⟨h0, h6⟩ := hb nd hmem
    simp only [weeklyFindStep, hfind]
    rw [if_neg (by omega)]
    unfold addDays
    omega
  | none =>
    obtain ⟨h0, h6⟩ := hb (sds.headD 0) (headD_mem sds hne)
    simp only [weeklyFindStep, hfind]
    unfold addDays
    omega

theorem advance_gt_of_day_gt (t s : Int) (h : t / 1440 < s / 1440) : t < s := by
  omega

theorem jsSetDayOfMonth_addMonths_day_gt (t j n : Int) (hj : 1 ≤ j) (hn : 1 ≤ n) :
    t / 1440 < (jsSetDayOfMonth (jsAddMonths t j) n) / 1440 := by
  have hz := day_eq_msd_add_dom (t / 1440)
  have hdom := dom_lower (t / 1440)
  have hup := day_lt_msd_succ (t / 1440)
  have hA : jsAddMonths t j =
      (msd (monthIdxOfDay (t / 1440) + j) + (domOfDay (t / 1440) - 1)) * 1440 + t % 1440 := rfl
  set W := msd (monthIdxOfDay (t / 1440) + j) + (domOfDay (t / 1440) - 1) with hW
  have hw : (jsAddMonths t j) / 1440 = W := by
    rw [hA]
    exact day_of_mk _ _ (by omega) (by omega)
  have hmono : msd (monthIdxOfDay (t / 1440) + 1) ≤ msd (monthIdxOfDay (t / 1440) + j) :=
    msd_mono (by omega)
  have hle : msd (monthIdxOfDay (t / 1440) + j) ≤ msd (monthIdxOfDay W) :=
    msd_le_of_le _ _ (by omega)
  unfold jsSetDayOfMonth
  rw [hw, hA]
  have hmod : ((W * 1440 + t % 1440) % 1440) = t % 1440 := by omega
  rw [hmod]
  rw [day_of_mk _ _ (by omega) (by omega)]
  omega

theorem jsAddYears_day_gt (t n : Int) (hn : 1 ≤ n) :
    t / 1440 < (jsAddYears t n) / 1440 := by
  have hz := (civil_spec (t / 1440)).2.2.2.1
  have hgt := dfc_year_shift_gt (yearOfDay (t / 1440)) (monthOfDay (t / 1440))
    (domOfDay (t / 1440)) n hn
  unfold jsAddYears
  rw [day_of_mk _ _ (by omega) (by omega)]
  omega

theorem jsAddMonths_day_gt2 (t n : Int) (hn : 1 ≤ n) :
    t / 1440 < (jsAddMonths t n) / 1440 := by
  have h := jsAddMonths_day_gt t n hn
  unfold jsAddMonths
  rw [day_of_mk _ _ (by omega) (by omega)]
  exact h

/-- Any successful one-unit advancement lands on a strictly later calendar day. -/
theorem advanceOnce_day_gt (t : Int) (ty : ReminderType) (p : Option RecurrencePattern)
    (hwf : wfPattern p = true) (s : Int) (hs : advanceOnce t ty p = some s) :
    t / 1440 < s / 1440 := by
  have hint := wf_effInterval p hwf
  cases ty
  case once => exact absurd hs (by simp [advanceOnce])
  case custom => exact absurd hs (by simp [advanceOnce])
  case daily =>
    have hs2 : some (applyTimeOfDay p (addDays t (effInterval p))) = some s := hs
    injection hs2 with hs2
    subst hs2
    have := applyTimeOfDay_day_ge p hwf (addDays t (effInterval p))
    unfold addDays at this ⊢
    omega
  case weekly =>
    have hs2 : some (applyTimeOfDay p
        (if daysOfWeekOf p ≠ [] then weeklyFindStep t (sortedDays (daysOfWeekOf p))
        else addDays t (7 * effInterval p))) = some s := hs
    injection hs2 with hs2
    subst hs2
    by_cases hne : daysOfWeekOf p ≠ []
    · rw [if_pos hne] at *
      have hstep := weeklyFindStep_day_gt t (sortedDays (daysOfWeekOf p))
        (sortedDays_ne_nil _ hne)
        (fun d hd => wf_daysOfWeek p hwf d ((sortedDays_mem _ _).mp hd))
      have := applyTimeOfDay_day_ge p hwf (weeklyFindStep t (sortedDays (daysOfWeekOf p)))
      omega
    · rw [if_neg hne] at *
      have := applyTimeOfDay_day_ge p hwf (addDays t (7 * effInterval p))
      unfold addDays at this ⊢
      omega
  case monthly =>
    have hs2 : some (applyTimeOfDay p
        (match dayOfMonthOf p with
        | some n => jsSetDayOfMonth (jsAddMonths t (effInterval p)) n
        | none => jsAddMonths t (effInterval p))) = some s := hs
    injection hs2 with hs2
    subst hs2
    cases hdm : dayOfMonthOf p with
    | some n =>
      simp only [hdm]
      have hn := wf_dayOfMonth p hwf n hdm
      have hstep := jsSetDayOfMonth_addMonths_day_gt t (effInterval p) n hint hn
      have := applyTimeOfDay_day_ge p hwf (jsSetDayOfMonth (jsAddMonths t (effInterval p)) n)
      omega
    | none =>
      simp only [hdm]
      have hstep := jsAddMonths_day_gt2 t (effInterval p) hint
      have := applyTimeOfDay_day_ge p hwf (jsAddMonths t (effInterval p))
      omega
  case yearly =>
    have hs2 : some (applyTimeOfDay p (jsAddYears t (effInterval p))) = some s := hs
    injection hs2 with hs2
    subst hs2
    have hstep := jsAddYears_day_gt t (effInterval p) hint
    have := applyTimeOfDay_day_ge p hwf (jsAddYears t (effInterval p))
    omega

theorem advanceOnce_gt (t : Int) (ty : ReminderType) (p : Option RecurrencePattern)
    (hwf : wfPattern p = true) (s : Int) (hs : advanceOnce t ty p = some s) : t < s :=
  advance_gt_of_day_gt t s (advanceOnce_day_gt t ty p hwf s hs)

theorem maxOcc_negative_check (p : Option RecurrencePattern) (mo : Int)
    (hmo : maxOccurrencesOf p = some mo) (hneg : mo < 0) :
    maxOccurrencesFalsyCheck p = true := by
  unfold maxOccurrencesFalsyCheck
  rw [hmo]
  simp only [Bool.and_eq_true, decide_eq_true_eq]
  omega

/-- C3 (amended): for every non-once reminder with a wellformed pattern, the
subsequent-execution computation either returns absent or an instant strictly after its
argument; it returns absent when the computed instant exceeds pattern.endDate, and when
pattern.maxOccurrences is negative. It does not consult the execution count, so a merely
exhausted maxOccurrences does not make it absent (see the counterexample). -/
theorem calculateSubsequentExecution_spec (x : Int) (ty : ReminderType)
    (p : Option RecurrencePattern) (_hty : ty ≠ ReminderType.once) (hwf : wfPattern p = true) :
    (∀ v, calculateSubsequentExecution x ty p = some v → x < v) ∧
    (∀ mo, maxOccurrencesOf p = some mo → mo < 0 →
      calculateSubsequentExecution x ty p = none) ∧
    (∀ e v, endDateOf p = some e → advanceOnce x ty p = some v → e < v →
      calculateSubsequentExecution x ty p = none) := by
  refine ⟨?_, ?_, ?_⟩
  · intro v hv
    unfold calculateSubsequentExecution at hv
    cases hadv : advanceOnce x ty p with
    | none =>
      simp only [hadv] at hv
      exact Option.noConfusion hv
    | some next =>
      simp only [hadv] at hv
      have hgt := advanceOnce_gt x ty p hwf next hadv
      by_cases hmc : maxOccurrencesFalsyCheck p = true
      · rw [if_pos hmc] at hv; exact absurd hv (by simp)
      · rw [if_neg hmc] at hv
        cases hed : endDateOf p with
        | none =>
          simp only [hed] at hv
          injection hv with hv
          omega
        | some e =>
          simp only [hed] at hv
          by_cases hlt : e < next
          · rw [if_pos hlt] at hv; exact absurd hv (by simp)
          · rw [if_neg hlt] at hv
            injection hv with hv
            omega
  · intro mo hmo hneg
    have hmc := maxOcc_negative_check p mo hmo hneg
    unfold calculateSubsequentExecution
    cases hadv : advanceOnce x ty p with
    | none => simp only [hadv]
    | some next =>
      simp only [hadv]
      rw [if_pos hmc]
  · intro e v hed hadv hlt
    unfold calculateSubsequentExecution
    simp only [hadv]
    by_cases hmc : maxOccurrencesFalsyCheck p = true
    · rw [if_pos hmc]
    · rw [if_neg hmc]
      simp only [hed]
      rw [if_pos hlt]

/-- Witness for the C3 theorem at a concrete input. -/
theorem calculateSubsequentExecution_spec_witness : (0 : Int) < 1440 :=
  (calculateSubsequentExecution_spec 0 ReminderType.daily none (by decide) (by decide)).1
    1440 (by decide)

/-- A daily reminder whose occurrence count has reached its maxOccurrences of 1. -/
def exhaustedDailyReminder : Reminder :=
  { id := 0, title := "water", type := .daily, scheduledAt := 0, nextExecution := some 0,
    recurrencePattern := some { maxOccurrences := some 1 }, executionCount := 1 }

/-- C3 counterexample: with maxOccurrences = 1 already exhausted by an execution count of
1, the subsequent-execution computation still returns a next instant rather than absent:
the occurrence count is never compared against maxOccurrences (the code only checks
maxOccurrences of at most 0). -/
theorem calculateSubsequentExecution_ignores_exhaustion :
    exhaustedDailyReminder.executionCount = 1 ∧
    maxOccurrencesOf exhaustedDailyReminder.recurrencePattern = some 1 ∧
    calculateSubsequentExecution 0 exhaustedDailyReminder.type
      exhaustedDailyReminder.recurrencePattern = some 1440 := by decide

/-- C2: the initial-execution computation evaluated at the failing input of the claim. A
daily reminder created with scheduledAt 02:00 of day 0 (instant 120), timeOfDay "11:00"
and now = 02:00 of day 0 yields 02:00 of day 1 (instant 1560), not 11:00 of day 0
(instant 660): the block applying timeOfDay to the candidate is commented out in the
source, contradicting the repository documentation of the same-day-scheduling fix. -/
theorem calculateInitialRecurringExecution_daily_failing_input :
    calculateInitialRecurringExecution 120 ReminderType.daily
      (some { timeOfDay := some (11, 0) }) 120 = some 1560 ∧
    (1560 : Int) ≠ 660 := by decide

/-! Creation, scheduler marking, and due queries, translated from reminder.service.ts
(createReminder lines 20-117, markReminderAsExecuted lines 157-168) and the current
ReminderRepository (markAsExecuted and findDueReminders). -/

/-- The scheduledAt field of CreateReminderParams after the parsing chain of createReminder
(lines 31-63): an input some parsing attempt accepts carries its instant; an input that
defeats every attempt is malformed (new Date stays NaN throughout). -/
inductive ScheduledAtInput where
  | parsed (t : Int)
  | malformed
deriving DecidableEq, Repr

structure CreateReminderParams where
  title : String
  description : Option String := none
  type : ReminderType
  scheduledAt : ScheduledAtInput
  recurrencePattern : Option RecurrencePattern := none
deriving DecidableEq, Repr

/-- The scheduled instant resolved from the parsing chain: a malformed input is replaced
by now plus one hour (createReminder lines 70-76). -/
def scheduledAtValue (s : ScheduledAtInput) (now : Int) : Int :=
  match s with
  | .parsed t => t
  | .malformed => now + 60

/-- createReminder (reminder.service.ts lines 20-117). A malformed scheduledAt is not
rejected: the service logs and substitutes now plus one hour (lines 70-76; the past-date
adjustment at lines 79-82 is commented out), then computes the initial nextExecution and
persists an active reminder unconditionally. -/
def createReminder (userId : Nat) (params : CreateReminderParams) (now : Int)
    (freshId : Nat) : Reminder :=
  { id := freshId
    userId := userId
    title := params.title
    description := params.description
    type := params.type
    status := .active
    scheduledAt := scheduledAtValue params.scheduledAt now
    nextExecution := calculateNextExecution (scheduledAtValue params.scheduledAt now)
      params.type params.recurrencePattern true now
    recurrencePattern := params.recurrencePattern
    executionCount := 0
    lastExecutedAt := none }

/-- ReminderRepository.markAsExecuted (current version, with the type parameter): bumps the
execution count and lastExecutedAt; stores the new nextExecution only when one was computed
and the type is not once, otherwise marks the reminder completed. The stale nextExecution
is never cleared. -/
def markAsExecuted (r : Reminder) (nextExecution : Option Int) (ty : Option ReminderType)
    (now : Int) : Reminder :=
  match nextExecution with
  | some ne =>
    if ty ≠ some ReminderType.once then
      { r with lastExecutedAt := some now, executionCount := r.executionCount + 1,
               nextExecution := some ne }
    else
      { r with lastExecutedAt := some now, executionCount := r.executionCount + 1,
               status := .completed }
  | none =>
    { r with lastExecutedAt := some now, executionCount := r.executionCount + 1,
             status := .completed }

/-- ReminderService.markReminderAsExecuted (lines 157-168): computes the subsequent
execution from the current nextExecution (a null Date coerces to the epoch in JS) and
delegates to the repository. -/
def markReminderAsExecuted (r : Reminder) (now : Int) : Reminder :=
  markAsExecuted r
    (calculateNextExecution (r.nextExecution.getD 0) r.type r.recurrencePattern false now)
    (some r.type) now

/-- Due predicate of ReminderRepository.findDueReminders: status active and nextExecution
at most now; the SQL comparison excludes a null nextExecution. -/
def isDue (r : Reminder) (now : Int) : Bool :=
  decide (r.status = ReminderStatus.active) &&
    (match r.nextExecution with
    | some ne => decide (ne ≤ now)
    | none => false)

/-- findDueReminders: the due reminders ordered by nextExecution ascending. -/
def findDueReminders (rs : List Reminder) (now : Int) : List Reminder :=
  (rs.filter (fun r => isDue r now)).mergeSort
    (fun a b => decide (a.nextExecution.getD 0 ≤ b.nextExecution.getD 0))

theorem mem_findDueReminders (rs : List Reminder) (now : Int) (r : Reminder) :
    r ∈ findDueReminders rs now ↔ r ∈ rs.filter (fun r => isDue r now) :=
  (List.mergeSort_perm _ _).mem_iff

/-! Deletion scope resolver, translated from the current recurring-deletion.service.ts
(the version with the already-occurred validation in deleteSingleOccurrence). Repository
effects are reflected as the final state of the targeted reminder. -/

inductive ScopeType
  | single
  | series
  | from_date
deriving DecidableEq, Repr

structure DeletionScope where
  type : ScopeType
  targetDate : Option Int := none
  fromDate : Option Int := none
deriving DecidableEq, Repr

/-- The user-facing message of a DeletionResult, by its template. -/
inductive DeletionMessage
  | deletedOnce
  | alreadyOccurred
  | deletedSingle
  | deletedSeries
  | stoppedFromDate
deriving DecidableEq, Repr

structure DeletionResult where
  success : Bool
  deletionType : ScopeType
  deletedCount : Int
  message : DeletionMessage
deriving DecidableEq, Repr

/-- Net effect of a deletion call on the targeted reminder in the store. -/
inductive StoreEffect
  | deleted
  | updated (r : Reminder)
  | unchanged
deriving DecidableEq, Repr

/-- calculateScheduledTimeForDate (lines 342-368): combine the target day with
pattern.timeOfDay, else the time of day of nextExecution, else of now. -/
def calculateScheduledTimeForDate (r : Reminder) (targetDate : Int) (now : Int) : Int :=
  match timeOfDayOf r.recurrencePattern with
  | some hm => setTimeOfDay targetDate hm.1 hm.2
  | none =>
    match r.nextExecution with
    | some ne => setTimeOfDay targetDate (hoursOf ne) (minutesOf ne)
    | none => setTimeOfDay targetDate (hoursOf now) (minutesOf now)

/-- The same-day exclusion test of the skipping loop: an absolute difference under one
day (lines 586-589). -/
def isExcludedInstant (t : Int) (exclusions : List Int) : Bool :=
  exclusions.any (fun e => decide ((t - e).natAbs < 1440))

/-- The bounded search of calculateNextExecutionSkippingExclusions (lines 582-643): test
the candidate, then advance one recurrence unit; the iteration budget is 100. -/
def skipLoop (ty : ReminderType) (p : Option RecurrencePattern) (exclusions : List Int)
    (now : Int) : Nat → Int → Option Int
  | 0, _ => none
  | Nat.succ fuel, t =>
    if ¬ isExcludedInstant t exclusions = true ∧ now < t then some t
    else
      match advanceOnce t ty p with
      | none => none
      | some s => skipLoop ty p exclusions now fuel s

/-- calculateNextExecutionSkippingExclusions (lines 561-647): starts from the later of the
current nextExecution and now. -/
def calculateNextExecutionSkippingExclusions (r : Reminder) (p : Option RecurrencePattern)
    (now : Int) : Option Int :=
  match r.nextExecution with
  | none => none
  | some ne => skipLoop r.type p (exclusionsOf p) now 100 (max ne now)

/-- The empty recurrence pattern, as produced by spreading an absent pattern. -/
def emptyPattern : RecurrencePattern := {}

/-- The exclusion date resolved by deleteSingleOccurrence (line 428):
`targetDate || reminder.nextExecution || new Date()`. -/
def exclusionDateOf (r : Reminder) (targetDate : Option Int) (now : Int) : Int :=
  match targetDate with
  | some t => t
  | none =>
    match r.nextExecution with
    | some ne => ne
    | none => now

/-- The spread-updated pattern of deleteSingleOccurrence (lines 459-465): all previous
exclusion dates kept, exactly one appended. -/
def patternWithExclusion (r : Reminder) (exclusionDate : Int) : RecurrencePattern :=
  { r.recurrencePattern.getD emptyPattern with
    exclusionDates := some (exclusionsOf r.recurrencePattern ++ [exclusionDate]) }

/-- The spread-updated pattern of deleteFromDate (lines 537-540). -/
def patternWithEndDate (r : Reminder) (cutoffDate : Int) : RecurrencePattern :=
  { r.recurrencePattern.getD emptyPattern with endDate := some cutoffDate }

/-- deleteSingleOccurrence (enhanced version, lines 420-504). -/
def deleteSingleOccurrence (r : Reminder) (targetDate : Option Int) (now : Int) :
    DeletionResult × StoreEffect :=
  if calculateScheduledTimeForDate r (exclusionDateOf r targetDate now) now < now then
    ({ success := false, deletionType := .single, deletedCount := 0,
       message := .alreadyOccurred }, .unchanged)
  else
    match calculateNextExecutionSkippingExclusions
        { r with recurrencePattern := some (patternWithExclusion r (exclusionDateOf r targetDate now)) }
        (some (patternWithExclusion r (exclusionDateOf r targetDate now))) now with
    | some ne =>
      ({ success := true, deletionType := .single, deletedCount := 1,
         message := .deletedSingle },
       .updated { r with recurrencePattern := some (patternWithExclusion r (exclusionDateOf r targetDate now)),
                         nextExecution := some ne })
    | none =>
      ({ success := true, deletionType := .single, deletedCount := 1,
         message := .deletedSingle },
       .updated { r with recurrencePattern := some (patternWithExclusion r (exclusionDateOf r targetDate now)),
                         status := .completed })

/-- deleteEntireSeries (lines 509-519). -/
def deleteEntireSeries (_r : Reminder) : DeletionResult × StoreEffect :=
  ({ success := true, deletionType := .series, deletedCount := 1,
     message := .deletedSeries }, .deleted)

/-- deleteFromDate (lines 524-556). -/
def deleteFromDate (r : Reminder) (fromDate : Option Int) (now : Int) :
    DeletionResult × StoreEffect :=
  let cutoffDate := fromDate.getD now
  match r.nextExecution with
  | none => deleteEntireSeries r
  | some ne =>
    if ne < cutoffDate then deleteEntireSeries r
    else
      ({ success := true, deletionType := .from_date, deletedCount := 1,
         message := .stoppedFromDate },
       .updated { r with recurrencePattern := some (patternWithEndDate r cutoffDate),
                         status := .completed })

/-- deleteWithScope (lines 373-415): a once reminder is always deleted entirely; recurring
reminders dispatch on the scope. -/
def deleteWithScope (r : Reminder) (scope : DeletionScope) (now : Int) :
    DeletionResult × StoreEffect :=
  if r.type = ReminderType.once then
    ({ success := true, deletionType := .single, deletedCount := 1,
       message := .deletedOnce }, .deleted)
  else
    match scope.type with
    | .single => deleteSingleOccurrence r scope.targetDate now
    | .series => deleteEntireSeries r
    | .from_date => deleteFromDate r scope.fromDate now

theorem skipLoop_spec (ty : ReminderType) (p : Option RecurrencePattern)
    (excl : List Int) (now : Int) :
    ∀ fuel t v, skipLoop ty p excl now fuel t = some v →
      isExcludedInstant v excl = false ∧ now < v := by
  intro fuel
  induction fuel with
  | zero => intro t v h; exact Option.noConfusion h
  | succ n ih =>
    intro t v h
    unfold skipLoop at h
    by_cases hc : ¬ isExcludedInstant t excl = true ∧ now < t
    · rw [if_pos hc] at h
      injection h with h
      subst h
      exact ⟨by simpa using hc.1, hc.2⟩
    · rw [if_neg hc] at h
      cases hadv : advanceOnce t ty p with
      | none =>
        simp only [hadv] at h
        exact Option.noConfusion h
      | some s =>
        simp only [hadv] at h
        exact ih s v h

theorem sameDay_excluded (v e : Int) (excl : List Int) (hmem : e ∈ excl)
    (hday : v / 1440 = e / 1440) : isExcludedInstant v excl = true := by
  unfold isExcludedInstant
  rw [List.any_eq_true]
  refine ⟨e, hmem, ?_⟩
  simp only [decide_eq_true_eq]
  omega

/-- C1: deleteWithScope with scope single on a recurring reminder, whose resolved target
scheduled instant is strictly before now, fails with the already-occurred message and
leaves the store (nextExecution, recurrencePattern with its exclusionDates, status)
untouched. -/
theorem deleteWithScope_single_past_rejected (r : Reminder) (scope : DeletionScope)
    (now : Int) (hrec : r.type ≠ ReminderType.once) (hsc : scope.type = ScopeType.single)
    (hpast : calculateScheduledTimeForDate r (exclusionDateOf r scope.targetDate now) now
      < now) :
    deleteWithScope r scope now =
      ({ success := false, deletionType := .single, deletedCount := 0,
         message := .alreadyOccurred }, StoreEffect.unchanged) := by
  unfold deleteWithScope
  rw [if_neg hrec]
  simp only [hsc]
  unfold deleteSingleOccurrence
  rw [if_pos hpast]

/-- A recurring daily reminder used as the C1 witness input. -/
def c1reminder : Reminder :=
  { id := 1, title := "med", type := .daily, scheduledAt := 0, nextExecution := some 14400,
    recurrencePattern := some { timeOfDay := some (9, 0) } }

def c1scope : DeletionScope := { type := .single, targetDate := some 0 }

/-- Witness for the C1 theorem at a concrete input. -/
theorem deleteWithScope_single_past_rejected_witness :
    deleteWithScope c1reminder c1scope 100000 =
      ({ success := false, deletionType := .single, deletedCount := 0,
         message := .alreadyOccurred }, StoreEffect.unchanged) :=
  deleteWithScope_single_past_rejected c1reminder c1scope 100000 (by decide) (by decide)
    (by decide)

/-- C4: deleteWithScope with scope from_date on a recurring reminder deletes the series
entirely when the current nextExecution is absent or precedes the cutoff, and otherwise
keeps the reminder with pattern.endDate set to the cutoff and status completed, leaving
executionCount and lastExecutedAt untouched and making the reminder never due again. -/
theorem deleteWithScope_from_date_spec (r : Reminder) (scope : DeletionScope) (now : Int)
    (hrec : r.type ≠ ReminderType.once) (hsc : scope.type = ScopeType.from_date) :
    (r.nextExecution = none →
      deleteWithScope r scope now =
        ({ success := true, deletionType := .series, deletedCount := 1,
           message := .deletedSeries }, StoreEffect.deleted)) ∧
    (∀ ne, r.nextExecution = some ne → ne < scope.fromDate.getD now →
      deleteWithScope r scope now =
        ({ success := true, deletionType := .series, deletedCount := 1,
           message := .deletedSeries }, StoreEffect.deleted)) ∧
    (∀ ne, r.nextExecution = some ne → ¬ ne < scope.fromDate.getD now →
      deleteWithScope r scope now =
        ({ success := true, deletionType := .from_date, deletedCount := 1,
           message := .stoppedFromDate },
         StoreEffect.updated
           { r with recurrencePattern := some (patternWithEndDate r (scope.fromDate.getD now)),
                    status := .completed }) ∧
      (∀ now2, isDue
        { r with recurrencePattern := some (patternWithEndDate r (scope.fromDate.getD now)),
                 status := ReminderStatus.completed } now2 = false)) := by
  refine ⟨?_, ?_, ?_⟩
  · intro hne
    unfold deleteWithScope
    rw [if_neg hrec]
    simp only [hsc]
    unfold deleteFromDate
    simp only [hne]
    rfl
  · intro ne hne hlt
    unfold deleteWithScope
    rw [if_neg hrec]
    simp only [hsc]
    unfold deleteFromDate
    simp only [hne]
    rw [if_pos hlt]
    rfl
  · intro ne hne hge
    constructor
    · unfold deleteWithScope
      rw [if_neg hrec]
      simp only [hsc]
      unfold deleteFromDate
      simp only [hne]
      rw [if_neg hge]
    · intro now2
      unfold isDue
      simp

/-- A recurring reminder and scope used as the C4 witness input. -/
def c4reminder : Reminder :=
  { id := 2, title := "gym", type := .weekly, scheduledAt := 0, nextExecution := some 5000,
    recurrencePattern := some { daysOfWeek := some [1, 3] } }

def c4scope : DeletionScope := { type := .from_date, fromDate := some 1000 }

/-- Witness for the C4 theorem at a concrete input (cutoff after the next execution is a
full series delete; the dual branch is exercised through the kept-reminder equality). -/
theorem deleteWithScope_from_date_spec_witness :
    deleteWithScope c4reminder c4scope 0 =
      ({ success := true, deletionType := .from_date, deletedCount := 1,
         message := .stoppedFromDate },
       StoreEffect.updated
         { c4reminder with
           recurrencePattern := some (patternWithEndDate c4reminder 1000),
           status := .completed }) :=
  ((deleteWithScope_from_date_spec c4reminder c4scope 0 (by decide) (by decide)).2.2
    5000 (by decide) (by decide)).1

/-- C5: deleteWithScope with scope single on a recurring reminder, targeting an instant
not in the past, succeeds, appends exactly one entry to pattern.exclusionDates (all
previous entries preserved), and either installs a recomputed nextExecution that is
strictly in the future and on no excluded calendar day, or, when the bounded search finds
no future candidate, marks the reminder completed instead of deleting it. -/
theorem deleteWithScope_single_future_spec (r : Reminder) (scope : DeletionScope)
    (now : Int) (hrec : r.type ≠ ReminderType.once) (hsc : scope.type = ScopeType.single)
    (hfut : ¬ calculateScheduledTimeForDate r (exclusionDateOf r scope.targetDate now) now
      < now) :
    (deleteWithScope r scope now).1.success = true ∧
    ∃ rr, (deleteWithScope r scope now).2 = StoreEffect.updated rr ∧
      rr.recurrencePattern
        = some (patternWithExclusion r (exclusionDateOf r scope.targetDate now)) ∧
      exclusionsOf rr.recurrencePattern
        = exclusionsOf r.recurrencePattern ++ [exclusionDateOf r scope.targetDate now] ∧
      ((∃ v, rr.nextExecution = some v ∧ now < v ∧ rr.status = r.status ∧
          ∀ e ∈ exclusionsOf rr.recurrencePattern, v / 1440 ≠ e / 1440)
        ∨ (rr.status = ReminderStatus.completed ∧ rr.nextExecution = r.nextExecution)) := by
  have hstep : deleteWithScope r scope now = deleteSingleOccurrence r scope.targetDate now := by
    unfold deleteWithScope
    rw [if_neg hrec]
    simp only [hsc]
  rw [hstep]
  unfold deleteSingleOccurrence
  rw [if_neg hfut]
  cases hskip : calculateNextExecutionSkippingExclusions { r with recurrencePattern := some (patternWithExclusion r (exclusionDateOf r scope.targetDate now)) } (some (patternWithExclusion r (exclusionDateOf r scope.targetDate now))) now with
  | none =>
    exact ⟨rfl, _, rfl, rfl, rfl, Or.inr ⟨rfl, rfl⟩⟩
  | some v =>
    refine ⟨rfl, _, rfl, rfl, rfl, Or.inl ⟨v, rfl, ?_, rfl, ?_⟩⟩
    · unfold calculateNextExecutionSkippingExclusions at hskip
      cases hne : r.nextExecution with
      | none =>
        simp only [hne] at hskip
        exact Option.noConfusion hskip
      | some n0 =>
        simp only [hne] at hskip
        exact (skipLoop_spec _ _ _ _ _ _ _ hskip).2
    · intro e he hday
      unfold calculateNextExecutionSkippingExclusions at hskip
      cases hne : r.nextExecution with
      | none =>
        simp only [hne] at hskip
        exact Option.noConfusion hskip
      | some n0 =>
        simp only [hne] at hskip
        have hnx := (skipLoop_spec _ _ _ _ _ _ _ hskip).1
        have hmem : e ∈ exclusionsOf
            (some (patternWithExclusion r (exclusionDateOf r scope.targetDate now))) := he
        have := sameDay_excluded v e _ hmem hday
        rw [this] at hnx
        exact Bool.noConfusion hnx

/-- A recurring daily reminder with a timeOfDay, used as the C5 witness input: its next
occurrence, 9 AM of day 1 (instant 1980), is the excluded target. -/
def c5reminder : Reminder :=
  { id := 3, title := "meds", type := .daily, scheduledAt := 540, nextExecution := some 1980,
    recurrencePattern := some { timeOfDay := some (9, 0) } }

def c5scope : DeletionScope := { type := .single, targetDate := some 1980 }

/-- Witness for the C5 theorem at a concrete input. -/
theorem deleteWithScope_single_future_spec_witness :
    (deleteWithScope c5reminder c5scope 1000).1.success = true ∧
    ∃ rr, (deleteWithScope c5reminder c5scope 1000).2 = StoreEffect.updated rr ∧
      rr.recurrencePattern
        = some (patternWithExclusion c5reminder
            (exclusionDateOf c5reminder c5scope.targetDate 1000)) ∧
      exclusionsOf rr.recurrencePattern
        = exclusionsOf c5reminder.recurrencePattern
            ++ [exclusionDateOf c5reminder c5scope.targetDate 1000] ∧
      ((∃ v, rr.nextExecution = some v ∧ (1000 : Int) < v ∧ rr.status = c5reminder.status ∧
          ∀ e ∈ exclusionsOf rr.recurrencePattern, v / 1440 ≠ e / 1440)
        ∨ (rr.status = ReminderStatus.completed ∧
            rr.nextExecution = c5reminder.nextExecution)) :=
  deleteWithScope_single_future_spec c5reminder c5scope 1000 (by decide) (by decide)
    (by decide)

/-- C6 (amended): a creation request whose scheduledAt is malformed is NOT rejected. The
service substitutes now plus one hour for the unparseable instant and persists an active
reminder with the given title under the fresh id (reminder.service.ts lines 69-76: the
isNaN branch logs, then overwrites scheduledDate; no error is thrown). -/
theorem createReminder_malformed_not_rejected (userId : Nat) (params : CreateReminderParams)
    (now : Int) (freshId : Nat) (h : params.scheduledAt = ScheduledAtInput.malformed) :
    (createReminder userId params now freshId).scheduledAt = now + 60 ∧
    (createReminder userId params now freshId).status = ReminderStatus.active ∧
    (createReminder userId params now freshId).title = params.title ∧
    (createReminder userId params now freshId).id = freshId := by
  unfold createReminder scheduledAtValue
  rw [h]
  exact ⟨rfl, rfl, rfl, rfl⟩

/-- A creation request whose timestamp defeated every parsing attempt. -/
def malformedParams : CreateReminderParams :=
  { title := "call mom", type := .once, scheduledAt := .malformed }

/-- Witness for the C6 theorem at a concrete input. -/
theorem createReminder_malformed_not_rejected_witness :
    (createReminder 1 malformedParams 0 5).scheduledAt = 0 + 60 ∧
    (createReminder 1 malformedParams 0 5).status = ReminderStatus.active ∧
    (createReminder 1 malformedParams 0 5).title = malformedParams.title ∧
    (createReminder 1 malformedParams 0 5).id = 5 :=
  createReminder_malformed_not_rejected 1 malformedParams 0 5 (by decide)

/-- C6 counterexample: a concrete malformed creation request produces a persisted active
reminder (scheduledAt defaulted to one hour past now, nextExecution set), with no store
state left unchanged and no validation error: creation does not reject malformed input. -/
theorem createReminder_malformed_counterexample :
    (createReminder 1 malformedParams 0 5).status = ReminderStatus.active ∧
    (createReminder 1 malformedParams 0 5).scheduledAt = 60 ∧
    (createReminder 1 malformedParams 0 5).nextExecution = some 60 := by decide

theorem markAsExecuted_completed_or_scheduled (r : Reminder) (ne : Option Int)
    (ty : Option ReminderType) (now : Int) :
    (markAsExecuted r ne ty now).status = ReminderStatus.completed ∨
    (markAsExecuted r ne ty now).nextExecution ≠ none := by
  cases ne with
  | none => exact Or.inl rfl
  | some v =>
    have hred : markAsExecuted r (some v) ty now =
        if ty ≠ some ReminderType.once then
          { r with lastExecutedAt := some now, executionCount := r.executionCount + 1,
                   nextExecution := some v }
        else
          { r with lastExecutedAt := some now, executionCount := r.executionCount + 1,
                   status := ReminderStatus.completed } := rfl
    rw [hred]
    by_cases h : ty = some ReminderType.once
    · rw [if_neg (not_not_intro h)]
      exact Or.inl rfl
    · rw [if_pos h]
      exact Or.inr (by simp)

theorem calculateInitialRecurringExecution_isSome (s : Int) (ty : ReminderType)
    (p : Option RecurrencePattern) (now : Int) (h : ty ≠ ReminderType.custom)
    (h2 : ty ≠ ReminderType.once) :
    calculateInitialRecurringExecution s ty p now ≠ none := by
  cases ty with
  | once => exact absurd rfl h2
  | custom => exact absurd rfl h
  | daily =>
    show (if now < s then some s else some (addDays s (effInterval p))) ≠ none
    split_ifs <;> simp
  | weekly =>
    show (if daysOfWeekOf p ≠ [] then
        if (sortedDays (daysOfWeekOf p)).contains (jsWeekday s) ∧ now < s then some s
        else some (weeklyFindStep s (sortedDays (daysOfWeekOf p)))
      else
        if now < s then some s
        else some (addDays s (7 * effInterval p))) ≠ none
    split_ifs <;> simp
  | monthly =>
    show (match dayOfMonthOf p with
      | some targetDay =>
        if domOfDay (s / 1440) = targetDay ∧ now < s then some s
        else some (jsSetDayOfMonth (jsAddMonths s (effInterval p)) targetDay)
      | none =>
        if now < s then some s
        else some (jsAddMonths s (effInterval p))) ≠ none
    cases dayOfMonthOf p with
    | none =>
      show (if now < s then some s else some (jsAddMonths s (effInterval p))) ≠ none
      split_ifs <;> simp
    | some targetDay =>
      show (if domOfDay (s / 1440) = targetDay ∧ now < s then some s
        else some (jsSetDayOfMonth (jsAddMonths s (effInterval p)) targetDay)) ≠ none
      split_ifs <;> simp
  | yearly =>
    show (if now < s then some s else some (jsAddYears s (effInterval p))) ≠ none
    split_ifs <;> simp

theorem deleteWithScope_updated_completed_or_scheduled (r : Reminder) (scope : DeletionScope)
    (now : Int) (rr : Reminder)
    (h : (deleteWithScope r scope now).2 = StoreEffect.updated rr) :
    rr.status = ReminderStatus.completed ∨ rr.nextExecution ≠ none := by
  unfold deleteWithScope at h
  by_cases ho : r.type = ReminderType.once
  · rw [if_pos ho] at h
    exact StoreEffect.noConfusion h
  · rw [if_neg ho] at h
    cases hst : scope.type with
    | series =>
      simp only [hst] at h
      exact StoreEffect.noConfusion h
    | from_date =>
      simp only [hst] at h
      unfold deleteFromDate at h
      cases hne : r.nextExecution with
      | none =>
        simp only [hne] at h
        exact StoreEffect.noConfusion h
      | some ne =>
        simp only [hne] at h
        by_cases hc : ne < scope.fromDate.getD now
        · rw [if_pos hc] at h
          exact StoreEffect.noConfusion h
        · rw [if_neg hc] at h
          have h2 : StoreEffect.updated
              { r with recurrencePattern := some (patternWithEndDate r (scope.fromDate.getD now)), status := ReminderStatus.completed, nextExecution := some ne }
              = StoreEffect.updated rr := h
          injection h2 with h3
          rw [← h3]
          exact Or.inl rfl
    | single =>
      simp only [hst] at h
      unfold deleteSingleOccurrence at h
      by_cases hp : calculateScheduledTimeForDate r (exclusionDateOf r scope.targetDate now)
          now < now
      · rw [if_pos hp] at h
        exact StoreEffect.noConfusion h
      · rw [if_neg hp] at h
        cases hskip : calculateNextExecutionSkippingExclusions { r with recurrencePattern := some (patternWithExclusion r (exclusionDateOf r scope.targetDate now)) } (some (patternWithExclusion r (exclusionDateOf r scope.targetDate now))) now with
        | none =>
          rw [hskip] at h
          have h2 : StoreEffect.updated
              { r with recurrencePattern := some (patternWithExclusion r (exclusionDateOf r scope.targetDate now)), status := ReminderStatus.completed }
              = StoreEffect.updated rr := h
          injection h2 with h3
          rw [← h3]
          exact Or.inl rfl
        | some v =>
          rw [hskip] at h
          have h2 : StoreEffect.updated
              { r with recurrencePattern := some (patternWithExclusion r (exclusionDateOf r scope.targetDate now)), nextExecution := some v }
              = StoreEffect.updated rr := h
          injection h2 with h3
          rw [← h3]
          exact Or.inr (by simp)

/-- C9 (amended): every mutating operation leaves the targeted reminder either completed
or with a present nextExecution: repository markAsExecuted, service markReminderAsExecuted,
any reminder kept (updated) by deleteWithScope, and creation of any non-custom reminder.
The converse direction of the claimed equivalence is false: a completed once reminder
keeps its stale nextExecution (see the counterexample), so absence of nextExecution is not
equivalent to completion or a fired once reminder. -/
theorem reminder_ops_completed_or_scheduled :
    (∀ r ne ty now, (markAsExecuted r ne ty now).status = ReminderStatus.completed ∨
      (markAsExecuted r ne ty now).nextExecution ≠ none) ∧
    (∀ r now, (markReminderAsExecuted r now).status = ReminderStatus.completed ∨
      (markReminderAsExecuted r now).nextExecution ≠ none) ∧
    (∀ r scope now rr, (deleteWithScope r scope now).2 = StoreEffect.updated rr →
      rr.status = ReminderStatus.completed ∨ rr.nextExecution ≠ none) ∧
    (∀ userId params now freshId, params.type ≠ ReminderType.custom →
      (createReminder userId params now freshId).nextExecution ≠ none) := by
  refine ⟨fun r ne ty now => markAsExecuted_completed_or_scheduled r ne ty now,
    fun r now => markAsExecuted_completed_or_scheduled r _ _ now,
    fun r scope now rr h => deleteWithScope_updated_completed_or_scheduled r scope now rr h,
    ?_⟩
  intro userId params now freshId hcustom
  have hred : (createReminder userId params now freshId).nextExecution =
      calculateNextExecution (scheduledAtValue params.scheduledAt now) params.type
        params.recurrencePattern true now := rfl
  rw [hred]
  unfold calculateNextExecution
  by_cases ho : params.type = ReminderType.once
  · rw [if_pos ho]
    simp
  · rw [if_neg ho, if_pos rfl]
    exact calculateInitialRecurringExecution_isSome _ _ _ _ hcustom ho

/-- A daily creation request used as the C9 witness input. -/
def dailyParams : CreateReminderParams :=
  { title := "water", type := .daily, scheduledAt := .parsed 100 }

/-- A once creation request whose reminder is then fired, for the C9 counterexample. -/
def onceParams : CreateReminderParams :=
  { title := "pay rent", type := .once, scheduledAt := .parsed 100 }

/-- Witness for the C9 theorem at a concrete input, exercising the creation conjunct at a
daily reminder. -/
theorem reminder_ops_completed_or_scheduled_witness :
    (createReminder 2 dailyParams 0 9).nextExecution ≠ none :=
  reminder_ops_completed_or_scheduled.2.2.2 2 dailyParams 0 9 (by decide)

/-- C9 counterexample: a once reminder, created for instant 100 and then fired at 100, is
marked completed but keeps its stale nextExecution of 100: the repository never clears the
field, so a completed reminder can still carry a present nextExecution. -/
theorem completed_once_keeps_nextExecution :
    (markReminderAsExecuted (createReminder 1 onceParams 0 7) 100).status
      = ReminderStatus.completed ∧
    (markReminderAsExecuted (createReminder 1 onceParams 0 7) 100).nextExecution
      = some 100 := by decide

/-- C10: a custom reminder never gets a recurrence computation: the initial and the
subsequent calculators both fall to the default branch and return none, a created custom
reminder carries no nextExecution, and it is never selected by findDueReminders, whatever
list it is queried in. -/
theorem custom_type_never_scheduled (s now x : Int) (p : Option RecurrencePattern)
    (userId freshId : Nat) (params : CreateReminderParams)
    (hty : params.type = ReminderType.custom) (rs : List Reminder) :
    calculateInitialRecurringExecution s ReminderType.custom p now = none ∧
    calculateSubsequentExecution x ReminderType.custom p = none ∧
    (createReminder userId params now freshId).nextExecution = none ∧
    createReminder userId params now freshId ∉ findDueReminders rs now := by
  have hnone : (createReminder userId params now freshId).nextExecution = none := by
    have hred : (createReminder userId params now freshId).nextExecution =
        calculateNextExecution (scheduledAtValue params.scheduledAt now) params.type
          params.recurrencePattern true now := rfl
    rw [hred, hty]
    rfl
  refine ⟨rfl, rfl, hnone, ?_⟩
  intro hmem
  have h2 := (mem_findDueReminders rs now _).1 hmem
  have h3 := (List.mem_filter.mp h2).2
  have h4 : isDue (createReminder userId params now freshId) now = false := by
    unfold isDue
    rw [hnone]
    simp
  rw [h4] at h3
  exact Bool.noConfusion h3

/-- A custom-type creation request used as the C10 witness input. -/
def customParams : CreateReminderParams :=
  { title := "note", type := .custom, scheduledAt := .parsed 50 }

/-- Witness for the C10 theorem at a concrete input: even when the new custom reminder is
itself in the queried list, findDueReminders does not select it. -/
theorem custom_type_never_scheduled_witness :
    calculateInitialRecurringExecution 0 ReminderType.custom none 0 = none ∧
    calculateSubsequentExecution 0 ReminderType.custom none = none ∧
    (createReminder 1 customParams 0 3).nextExecution = none ∧
    createReminder 1 customParams 0 3 ∉ findDueReminders [createReminder 1 customParams 0 3] 0 :=
  custom_type_never_scheduled 0 0 0 none 1 3 customParams (by decide)
    [createReminder 1 customParams 0 3]

/-! Reminder matcher, translated from reminder-matcher.service.ts (matchReminders lines
21-37, scoreReminder lines 42-123 and the scoring helpers at lines 128-239). Strings are
handled through their character lists, and the JS fractional scores are exact rationals. -/

/-- JS String.prototype.toLowerCase, as the character list of the string. -/
def lowerChars (s : String) : List Char := s.data.map Char.toLower

def startsWith : List Char → List Char → Bool
  | _, [] => true
  | [], _ :: _ => false
  | a :: as, b :: bs => decide (b = a) && startsWith as bs

/-- JS String.prototype.includes over character lists. -/
def containsSub : List Char → List Char → Bool
  | [], sub => startsWith [] sub
  | c :: rest, sub => startsWith (c :: rest) sub || containsSub rest sub

def splitWordsAux : List Char → List Char → List (List Char)
  | [], acc => [acc.reverse]
  | c :: rest, acc =>
    if c = ' ' then acc.reverse :: splitWordsAux rest []
    else splitWordsAux rest (c :: acc)

/-- JS String.prototype.split on a single space. -/
def splitWords (s : List Char) : List (List Char) := splitWordsAux s []

/-- The shared token extraction of the phrase scorers: split on spaces and keep words
longer than two characters. -/
def longWords (s : List Char) : List (List Char) :=
  (splitWords s).filter (fun w => decide (2 < w.length))

structure MatchParams where
  keywords : List String
  description : String
  timeContext : Option String := none
deriving DecidableEq, Repr

inductive MatchReason
  | titleContains
  | descriptionContains
  | timeMatches
  | exactPhrase
  | similarContent
deriving DecidableEq, Repr

structure ReminderMatch where
  reminder : Reminder
  score : ℚ
  reasons : List MatchReason
  isRecurring : Bool
  suggestedScope : Option ScopeType := none
deriving DecidableEq, Repr

/-- calculateKeywordScore (lines 128-136): the fraction of keywords that occur
(lowercased) in the text; an empty keyword list scores 0. -/
def calculateKeywordScore (text : List Char) (keywords : List String) : ℚ :=
  if 0 < keywords.length then
    (keywords.countP (fun keyword => containsSub text (lowerChars keyword)) : ℚ)
      / (keywords.length : ℚ)
  else 0

def skipSpaces : List Char → List Char
  | [] => []
  | c :: rest => if c.isWhitespace then skipSpaces rest else c :: rest

/-- The optional meridiem group of the time regex: true stands for pm. -/
def readPeriod : List Char → Option Bool
  | 'a' :: 'm' :: _ => some false
  | 'p' :: 'm' :: _ => some true
  | _ => none

/-- One or two leading digits, read greedily, with the remaining characters. -/
def twoDigitHour (c : Char) (rest : List Char) : Nat × List Char :=
  match rest with
  | c2 :: rest2 =>
    if c2.isDigit then ((c.toNat - 48) * 10 + (c2.toNat - 48), rest2)
    else (c.toNat - 48, c2 :: rest2)
  | [] => (c.toNat - 48, [])

def skipColon : List Char → List Char
  | [] => []
  | c :: rest => if c = ':' then rest else c :: rest

/-- The optional two-digit minute group of the time regex. -/
def skipMinuteGroup : List Char → List Char
  | c1 :: c2 :: rest => if c1.isDigit && c2.isDigit then rest else c1 :: c2 :: rest
  | l => l

def matchHour (c : Char) (rest : List Char) : Nat × Option Bool :=
  ((twoDigitHour c rest).1,
   readPeriod (skipSpaces (skipMinuteGroup (skipColon (twoDigitHour c rest).2))))

/-- The first match of the time regex of calculateTimeScore (line 162): one or two digits,
an optional colon, an optional two-digit group, whitespace, then an optional meridiem.
Every later group is optional, so the match starts at the first digit. -/
def regexTimeMatch : List Char → Option (Nat × Option Bool)
  | [] => none
  | c :: rest => if c.isDigit then some (matchHour c rest) else regexTimeMatch rest

/-- The meridiem adjustment of the matched hour (lines 167-171): pm adds 12 except at 12,
and am maps 12 to 0. -/
def hourAdjust (h : Nat) (period : Option Bool) : Nat :=
  match period with
  | some true => if h ≠ 12 then h + 12 else h
  | some false => if h = 12 then 0 else h
  | none => h

/-- calculateTimeScore (lines 141-198): absent nextExecution scores 0; a timeContext
naming today or tomorrow compares calendar days; otherwise a time-like token compares
hours; otherwise the named periods morning, afternoon, evening and night score 0.8 on
their hour ranges. -/
def calculateTimeScore (r : Reminder) (timeContext : String) (now : Int) : ℚ :=
  match r.nextExecution with
  | none => 0
  | some ne =>
    if containsSub (lowerChars timeContext) "today".data then
      if dayOfInstant ne = dayOfInstant now then 1 else 0
    else if containsSub (lowerChars timeContext) "tomorrow".data then
      if dayOfInstant ne = dayOfInstant now + 1 then 1 else 0
    else
      match regexTimeMatch (lowerChars timeContext) with
      | some hp =>
        if hoursOf ne = (hourAdjust hp.1 hp.2 : Int) then 1 else 0
      | none =>
        if containsSub (lowerChars timeContext) "morning".data then
          if 6 ≤ hoursOf ne ∧ hoursOf ne < 12 then (0.8 : ℚ) else 0
        else if containsSub (lowerChars timeContext) "afternoon".data then
          if 12 ≤ hoursOf ne ∧ hoursOf ne < 17 then (0.8 : ℚ) else 0
        else if containsSub (lowerChars timeContext) "evening".data then
          if 17 ≤ hoursOf ne ∧ hoursOf ne < 21 then (0.8 : ℚ) else 0
        else if containsSub (lowerChars timeContext) "night".data then
          if 21 ≤ hoursOf ne ∨ hoursOf ne < 6 then (0.8 : ℚ) else 0
        else 0

/-- calculateExactPhraseScore (lines 203-219): the fraction of long words of the query
description occurring in the title or the reminder description. -/
def calculateExactPhraseScore (r : Reminder) (description : String) : ℚ :=
  if 0 < (longWords (lowerChars description)).length then
    ((longWords (lowerChars description)).countP
        (fun w => containsSub (lowerChars r.title) w
          || containsSub (lowerChars (r.description.getD "")) w) : ℚ)
      / ((longWords (lowerChars description)).length : ℚ)
  else 0

/-- calculateSemanticScore (lines 224-239): the fraction of long words of the query
description equal to some long word of the title or the reminder description. -/
def calculateSemanticScore (r : Reminder) (description : String) : ℚ :=
  if 0 < (longWords (lowerChars description)).length then
    ((longWords (lowerChars description)).countP
        (fun w => (longWords (lowerChars r.title)
          ++ longWords (lowerChars (r.description.getD ""))).contains w) : ℚ)
      / ((longWords (lowerChars description)).length : ℚ)
  else 0

/-- JS truthiness of an optional string: present and nonempty. -/
def truthyStr (s : Option String) : Bool :=
  match s with
  | some v => decide (v ≠ "")
  | none => false

def titleKeywordScore (r : Reminder) (mp : MatchParams) : ℚ :=
  calculateKeywordScore (lowerChars r.title) mp.keywords

def descKeywordScore (r : Reminder) (mp : MatchParams) : ℚ :=
  calculateKeywordScore (lowerChars (r.description.getD "")) mp.keywords

def timeScoreOf (r : Reminder) (mp : MatchParams) (now : Int) : ℚ :=
  calculateTimeScore r (mp.timeContext.getD "") now

/-- The additive weighted score of scoreReminder (lines 47-92), before the cap: each
component is added only when its guard and positivity check pass, with weights 40, 20, 30,
50 and 15. -/
def scoreSum (r : Reminder) (mp : MatchParams) (now : Int) : ℚ :=
  (if 0 < titleKeywordScore r mp then titleKeywordScore r mp * 40 else 0) +
  (if truthyStr r.description = true ∧ 0 < descKeywordScore r mp
    then descKeywordScore r mp * 20 else 0) +
  (if truthyStr mp.timeContext = true ∧ 0 < timeScoreOf r mp now
    then timeScoreOf r mp now * 30 else 0) +
  (if 0 < calculateExactPhraseScore r mp.description
    then calculateExactPhraseScore r mp.description * 50 else 0) +
  (if 0 < calculateSemanticScore r mp.description
    then calculateSemanticScore r mp.description * 15 else 0)

/-- The reasons accumulated by scoreReminder, in source order. -/
def reasonsOf (r : Reminder) (mp : MatchParams) (now : Int) : List MatchReason :=
  (if 0 < titleKeywordScore r mp then [MatchReason.titleContains] else []) ++
  (if truthyStr r.description = true ∧ 0 < descKeywordScore r mp
    then [MatchReason.descriptionContains] else []) ++
  (if truthyStr mp.timeContext = true ∧ 0 < timeScoreOf r mp now
    then [MatchReason.timeMatches] else []) ++
  (if 0 < calculateExactPhraseScore r mp.description
    then [MatchReason.exactPhrase] else []) ++
  (if 0 < calculateSemanticScore r mp.description
    then [MatchReason.similarContent] else [])

/-- The scope suggestion of scoreReminder (lines 94-114); only the timeContext is read
without lowercasing, matching the source. -/
def suggestedScopeOf (r : Reminder) (mp : MatchParams) : Option ScopeType :=
  if r.type ≠ ReminderType.once then
    if truthyStr mp.timeContext = true ∧
        (containsSub (mp.timeContext.getD "").data "today".data
          ∨ containsSub (mp.timeContext.getD "").data "tomorrow".data
          ∨ containsSub (mp.timeContext.getD "").data "this".data) then
      some ScopeType.single
    else if containsSub (lowerChars mp.description) "all".data
        ∨ containsSub (lowerChars mp.description) "entire".data then
      some ScopeType.series
    else if truthyStr mp.timeContext = true ∧
        (containsSub (mp.timeContext.getD "").data "onwards".data
          ∨ containsSub (mp.timeContext.getD "").data "from".data) then
      some ScopeType.from_date
    else none
  else none

/-- scoreReminder (lines 42-123): the capped weighted score with reasons, recurrence flag
and scope suggestion. -/
def scoreReminder (r : Reminder) (mp : MatchParams) (now : Int) : ReminderMatch :=
  { reminder := r
    score := min (scoreSum r mp now) 100
    reasons := reasonsOf r mp now
    isRecurring := decide (r.type ≠ ReminderType.once)
    suggestedScope := suggestedScopeOf r mp }

/-- matchReminders (lines 21-37): score every reminder, keep the strictly positive
matches, and sort by descending score (the JS sort comparator b.score minus a.score,
stable on ties). -/
def matchReminders (userReminders : List Reminder) (mp : MatchParams) (now : Int) :
    List ReminderMatch :=
  ((userReminders.map (fun r => scoreReminder r mp now)).filter
      (fun m => decide (0 < m.score))).mergeSort
    (fun a b => decide (b.score ≤ a.score))

/-- C7: the matcher returns exactly the scored candidates of strictly positive score (a
permutation of the positively scored map), in descending score order, and every returned
score is strictly positive and at most 100. -/
theorem matchReminders_spec (userReminders : List Reminder) (mp : MatchParams) (now : Int) :
    (matchReminders userReminders mp now).Perm
      ((userReminders.map (fun r => scoreReminder r mp now)).filter
        (fun m => decide (0 < m.score))) ∧
    (matchReminders userReminders mp now).Pairwise (fun a b => b.score ≤ a.score) ∧
    (∀ m ∈ matchReminders userReminders mp now, 0 < m.score ∧ m.score ≤ 100) := by
  refine ⟨List.mergeSort_perm _ _, ?_, ?_⟩
  · have hs := List.sorted_mergeSort
      (fun (a b c : ReminderMatch)
        (hab : (fun a b : ReminderMatch => decide (b.score ≤ a.score)) a b)
        (hbc : (fun a b : ReminderMatch => decide (b.score ≤ a.score)) b c) => by
          simp only [decide_eq_true_eq] at *
          exact le_trans hbc hab)
      (fun (a b : ReminderMatch) => by
        simp only [Bool.or_eq_true, decide_eq_true_eq]
        exact le_total b.score a.score)
      ((userReminders.map (fun r => scoreReminder r mp now)).filter
        (fun m => decide (0 < m.score)))
    exact hs.imp (by intro a b h; simpa using h)
  · intro m hm
    have h1 := List.mem_filter.mp ((List.mergeSort_perm _ _).mem_iff.mp hm)
    refine ⟨by simpa using h1.2, ?_⟩
    obtain ⟨r, _hr, hEq⟩ := List.mem_map.mp h1.1
    rw [← hEq]
    exact min_le_right _ _

/-- A reminder and matching criteria used as the C7 witness input. -/
def medReminder : Reminder :=
  { id := 11, title := "Take Medicine", type := .daily, scheduledAt := 0,
    nextExecution := some 540, recurrencePattern := none }

def medParams : MatchParams :=
  { keywords := ["medicine"], description := "delete the medicine reminder" }

/-- Witness for the C7 theorem at a concrete input. -/
theorem matchReminders_spec_witness :
    (matchReminders [medReminder] medParams 0).Perm
      ((([medReminder] : List Reminder).map (fun r => scoreReminder r medParams 0)).filter
        (fun m => decide (0 < m.score))) ∧
    (matchReminders [medReminder] medParams 0).Pairwise (fun a b => b.score ≤ a.score) ∧
    (∀ m ∈ matchReminders [medReminder] medParams 0, 0 < m.score ∧ m.score ≤ 100) :=
  matchReminders_spec [medReminder] medParams 0

/-- C8: extending a keyword list by one keyword that occurs in the text never decreases
the keyword-match fraction computed by calculateKeywordScore. -/
theorem calculateKeywordScore_keyword_mono (text : List Char) (K : List String) (k : String)
    (h : containsSub text (lowerChars k) = true) :
    calculateKeywordScore text K ≤ calculateKeywordScore text (K ++ [k]) := by
  unfold calculateKeywordScore
  rw [List.countP_append, List.length_append]
  have hk : List.countP (fun keyword => containsSub text (lowerChars keyword)) [k] = 1 := by
    simp [List.countP_cons, h]
  rw [hk]
  simp only [List.length_singleton]
  have hm : List.countP (fun keyword => containsSub text (lowerChars keyword)) K ≤ K.length :=
    List.countP_le_length _
  by_cases hn : 0 < K.length
  · rw [if_pos hn, if_pos (by omega : 0 < K.length + 1)]
    rw [div_le_div_iff₀ (by exact_mod_cast hn) (by positivity)]
    have hmn : (List.countP (fun keyword => containsSub text (lowerChars keyword)) K : ℚ)
        ≤ (K.length : ℚ) := by exact_mod_cast hm
    push_cast
    nlinarith
  · rw [if_neg hn, if_pos (by omega : 0 < K.length + 1)]
    positivity

/-- Witness for the C8 theorem at a concrete input. -/
theorem calculateKeywordScore_keyword_mono_witness :
    calculateKeywordScore (lowerChars "Take Medicine") ["take"] ≤
      calculateKeywordScore (lowerChars "Take Medicine") (["take"] ++ ["medicine"]) :=
  calculateKeywordScore_keyword_mono (lowerChars "Take Medicine") ["take"] "medicine"
    (by decide)
